import Mathlib

/-!
Verification of the HealthChain queue engine.

The definitions below are a shallow embedding of the repository code:

* the priority engine (`calculatePriorityScore`, `sortQueueByPriority`,
  `generateTokenNumber`, `generateTrustScore`) from `src/lib/priority-engine.ts`;
* the queue operations (`registerPatient`, `escalate`, `callNext`,
  `completeConsultation`, `verifyPrescription`, `forwardPrescription`,
  `dispenseMedicine`, `scanReceipt`, ...) from the `QueueProvider` in
  `src/contexts/QueueContext.tsx` together with its reducer;
* the database CHECK constraint on `escalation_level` from
  `src/scripts/create-healthchain-tables.sql`.

External effects (uuid generation, `Date.now()`, the random source) are passed
in as explicit arguments; the durable store is assumed to apply every accepted
update, so the in-memory state after a successful operation is the state we
model.  JS numbers are modelled as `Int` (timestamps, counters) and `Rat`
(scores, which involve the fractional weights 0.5 and 0.1).
-/

namespace HealthChain

/-- Departments, from `src/types/queue.ts`. -/
inductive Department
  | general_medicine
  | pediatrics
  | orthopedics
  | gynecology
deriving DecidableEq

/-- Patient status values, from `src/types/queue.ts`. -/
inductive PatientStatus
  | waiting
  | called
  | consultation
  | emergency
  | completed
deriving DecidableEq

/-- Symptom severity, from `src/types/queue.ts`. -/
inductive SymptomSeverity
  | mild
  | moderate
  | severe
deriving DecidableEq

/-- Visit type, from `src/types/queue.ts`. -/
inductive VisitType
  | routine
  | followup
  | referral
deriving DecidableEq

/-- Prescription status values, from `src/types/queue.ts`. -/
inductive PrescriptionStatus
  | pending
  | verified
  | forwarded
  | dispensed
deriving DecidableEq

/-- Receipt status values, from `src/types/queue.ts`. -/
inductive ReceiptStatus
  | active
  | fulfilled
  | invalid
deriving DecidableEq

/-- Vulnerability flags, from `src/types/queue.ts`. -/
structure VulnerabilityFlags where
  elderly : Bool
  pregnant : Bool
  disabled : Bool
  chronicCondition : Bool
deriving DecidableEq

/-- The `Patient` record, from `src/types/queue.ts`. -/
structure Patient where
  id : String
  tokenNumber : String
  name : String
  age : Nat
  department : Department
  symptom : String
  symptomSeverity : SymptomSeverity
  vulnerabilities : VulnerabilityFlags
  visitType : VisitType
  status : PatientStatus
  arrivalTime : Int
  escalationLevel : Int
  isEmergency : Bool
  isLateArrival : Bool
  trustScore : Int
  receiptId : Option String
  consultationEndTime : Option Int
  diagnosis : Option String
  prescriptionId : Option String
deriving DecidableEq

/-- One medicine entry of a prescription, from `src/types/queue.ts`. -/
structure PrescriptionMedicine where
  name : String
  dosage : String
  frequency : String
  duration : String
  instructions : String
deriving DecidableEq

/-- The `Prescription` record, from `src/types/queue.ts`. -/
structure Prescription where
  id : String
  patientId : String
  patientName : String
  tokenNumber : String
  department : Department
  doctorDepartment : String
  diagnosis : String
  medicines : List PrescriptionMedicine
  status : PrescriptionStatus
  aiGenerated : Bool
  doctorVerified : Bool
  createdAt : Int
  forwardedAt : Option Int
  dispensedAt : Option Int
deriving DecidableEq

/-- The `VisitReceipt` record, from `src/types/queue.ts`. -/
structure VisitReceipt where
  id : String
  patientId : String
  patientName : String
  tokenNumber : String
  department : Department
  visitDate : Int
  doctorRole : String
  visitType : VisitType
  diagnosis : Option String
  prescriptionId : Option String
  prescriptionStatus : Option PrescriptionStatus
  status : ReceiptStatus
  scanCount : Int
  createdAt : Int
deriving DecidableEq

/-- Per-department token counters (`Record<Department, number>` in the source). -/
structure TokenCounters where
  general_medicine : Nat
  pediatrics : Nat
  orthopedics : Nat
  gynecology : Nat
deriving DecidableEq

/-- Read the counter of one department. -/
def counterOf (t : TokenCounters) : Department → Nat
  | .general_medicine => t.general_medicine
  | .pediatrics => t.pediatrics
  | .orthopedics => t.orthopedics
  | .gynecology => t.gynecology

/-- Replace the counter of one department, leaving the others alone. -/
def setCounter (t : TokenCounters) (d : Department) (n : Nat) : TokenCounters :=
  match d with
  | .general_medicine => { t with general_medicine := n }
  | .pediatrics => { t with pediatrics := n }
  | .orthopedics => { t with orthopedics := n }
  | .gynecology => { t with gynecology := n }

/-- The global queue state held by the reducer (`QueueState` in the source). -/
structure QueueState where
  patients : List Patient
  prescriptions : List Prescription
  receipts : List VisitReceipt
  tokenCounters : TokenCounters
  isOffline : Bool
  pendingSync : Bool
deriving DecidableEq

/-- The initial reducer state: empty lists, all counters zero. -/
def initialState : QueueState :=
  { patients := []
    prescriptions := []
    receipts := []
    tokenCounters :=
      { general_medicine := 0, pediatrics := 0, orthopedics := 0, gynecology := 0 }
    isOffline := false
    pendingSync := false }

/-- Display name of a department (the `DEPARTMENTS` table in `src/types/queue.ts`). -/
def deptName : Department → String
  | .general_medicine => "General Medicine"
  | .pediatrics => "Pediatrics"
  | .orthopedics => "Orthopedics"
  | .gynecology => "Gynecology"

/-- The fixed two-letter department code used in token numbers
(`prefixes` table inside `generateTokenNumber`). -/
def deptCode : Department → String
  | .general_medicine => "GM"
  | .pediatrics => "PD"
  | .orthopedics => "OR"
  | .gynecology => "GY"

/-- JS `String(n).padStart(3, '0')`: left-pad with zeros up to length 3. -/
def leftPadThree (s : String) : String :=
  if s.length ≥ 3 then s else String.mk (List.replicate (3 - s.length) '0') ++ s

/-- `generateTokenNumber` from `src/lib/priority-engine.ts`: the department code,
a hyphen, and the counter zero-padded to three digits. -/
def generateTokenNumber (department : Department) (counter : Nat) : String :=
  deptCode department ++ "-" ++ leftPadThree (Nat.repr counter)

/-- `generateTrustScore` from `src/lib/priority-engine.ts`, with the random draw
`r` (`Math.random()`, a value in `[0,1)`) passed in explicitly.  The JS
`Math.round` rounds half up, which on rationals is `⌊x + 1/2⌋`. -/
def generateTrustScore (r : ℚ) : Int :=
  min 100 (max 0 ⌊(70 : ℚ) + (r - 1/2) * 40 + 1/2⌋)

/-- `calculatePriorityScore` from `src/lib/priority-engine.ts`, with `Date.now()`
passed in as `now`.  All the hidden weights are transcribed literally:
severity caps 10/25/40, elderly bonus 15 for age at least 60, child bonus 12
for age at most 5, vulnerability bonuses 15/20/15/10, wait bonus of 0.5 points
per minute capped at 50, trust factor 0.1, escalation boosts 0/10/25, visit
type modifiers 0/5/10, late penalty 15, and the final floor at zero.  The
escalation table is only defined at levels 0, 1, 2; other values contribute
nothing (in JS they would poison the score with NaN, but reachable states
never hold them). -/
def calculatePriorityScore (now : Int) (p : Patient) : ℚ :=
  let severity : ℚ :=
    match p.symptomSeverity with
    | .mild => 10
    | .moderate => 25
    | .severe => 40
  let ageBonus : ℚ := if p.age ≥ 60 then 15 else if p.age ≤ 5 then 12 else 0
  let vuln : ℚ :=
    (if p.vulnerabilities.elderly then (15 : ℚ) else 0) +
    (if p.vulnerabilities.pregnant then (20 : ℚ) else 0) +
    (if p.vulnerabilities.disabled then (15 : ℚ) else 0) +
    (if p.vulnerabilities.chronicCondition then (10 : ℚ) else 0)
  let waitMinutes : ℚ := ((now : ℚ) - (p.arrivalTime : ℚ)) / (1000 * 60)
  let waitBonus : ℚ := min (waitMinutes * (1/2)) 50
  let trustTerm : ℚ := (p.trustScore : ℚ) * (1/10)
  let escal : ℚ :=
    if p.escalationLevel = 1 then 10 else if p.escalationLevel = 2 then 25 else 0
  let visitTerm : ℚ :=
    match p.visitType with
    | .routine => 0
    | .followup => 5
    | .referral => 10
  let late : ℚ := if p.isLateArrival then 15 else 0
  max 0 (severity + ageBonus + vuln + waitBonus + trustTerm + escal + visitTerm - late)

/-- The comparator passed to `Array.prototype.sort` inside `sortQueueByPriority`,
transcribed branch by branch from `src/lib/priority-engine.ts`.  A negative
result puts `a` first. -/
def queueCmp (now : Int) (a b : Patient) : ℚ :=
  if a.status = .called ∧ b.status ≠ .called then -1
  else if b.status = .called ∧ a.status ≠ .called then 1
  else if a.status = .consultation ∧ b.status ≠ .consultation then -1
  else if b.status = .consultation ∧ a.status ≠ .consultation then 1
  else if a.isEmergency = true ∧ b.isEmergency = false then -1
  else if b.isEmergency = true ∧ a.isEmergency = false then 1
  else if calculatePriorityScore now b ≠ calculatePriorityScore now a then
    calculatePriorityScore now b - calculatePriorityScore now a
  else (a.arrivalTime : ℚ) - (b.arrivalTime : ℚ)

/-- The order `a` may stay before `b` that the stable JS sort realises: the
comparator does not demand strictly the other way around. -/
def qle (now : Int) (a b : Patient) : Prop :=
  queueCmp now a b ≤ 0

instance (now : Int) : DecidableRel (qle now) := fun a b => by
  unfold qle
  infer_instance

/-- The optional department filter applied at the top of `sortQueueByPriority`. -/
def deptFilter (patients : List Patient) (department : Option Department) : List Patient :=
  match department with
  | some d => patients.filter (fun p => decide (p.department = d))
  | none => patients

/-- `sortQueueByPriority` from `src/lib/priority-engine.ts`: filter by the
optional department, split off completed patients, stable-sort the active ones
with the comparator (ECMAScript `Array.prototype.sort` is stable, which the
stable insertion sort models), and append the completed patients at the end. -/
def sortQueueByPriority (now : Int) (patients : List Patient)
    (department : Option Department) : List Patient :=
  let filtered := deptFilter patients department
  let active := filtered.filter (fun p => decide (p.status ≠ .completed))
  let completed := filtered.filter (fun p => decide (p.status = .completed))
  List.insertionSort (qle now) active ++ completed

/-- Rank of the operational status in the precedence chain of the comparator:
`called` first, then `consultation`, then every other active status. -/
def statusRank : PatientStatus → Nat
  | .called => 0
  | .consultation => 1
  | _ => 2

/-- Rank of the emergency flag: an emergency patient precedes a non-emergency
one. -/
def emergencyRank (p : Patient) : Nat :=
  if p.isEmergency then 0 else 1

/-- The precedence chain the specification describes, as a lexicographic
relation: status rank, then emergency rank, then priority score descending,
then arrival time ascending. -/
def chainLe (now : Int) (a b : Patient) : Prop :=
  statusRank a.status < statusRank b.status ∨
    (statusRank a.status = statusRank b.status ∧
      (emergencyRank a < emergencyRank b ∨
        (emergencyRank a = emergencyRank b ∧
          (calculatePriorityScore now b < calculatePriorityScore now a ∨
            (calculatePriorityScore now a = calculatePriorityScore now b ∧
              a.arrivalTime ≤ b.arrivalTime)))))

instance (now : Int) (a b : Patient) : Decidable (chainLe now a b) := by
  unfold chainLe
  infer_instance

theorem one_le_statusRank {s : PatientStatus} (h : s ≠ .called) : 1 ≤ statusRank s := by
  cases s <;> simp [statusRank] at h ⊢

theorem statusRank_eq_two {s : PatientStatus} (h1 : s ≠ .called)
    (h2 : s ≠ .consultation) : statusRank s = 2 := by
  cases s <;> simp [statusRank] at h1 h2 ⊢

theorem statusRank_eq_of_not_separated {a b : PatientStatus}
    (h1 : ¬(a = .called ∧ b ≠ .called)) (h2 : ¬(b = .called ∧ a ≠ .called))
    (h3 : ¬(a = .consultation ∧ b ≠ .consultation))
    (h4 : ¬(b = .consultation ∧ a ≠ .consultation)) :
    statusRank a = statusRank b := by
  cases a <;> cases b <;> simp_all [statusRank]

theorem emergencyRank_eq_of_not_separated {a b : Patient}
    (h5 : ¬(a.isEmergency = true ∧ b.isEmergency = false))
    (h6 : ¬(b.isEmergency = true ∧ a.isEmergency = false)) :
    emergencyRank a = emergencyRank b := by
  unfold emergencyRank
  cases ha : a.isEmergency <;> cases hb : b.isEmergency <;> simp_all

/-- The order used by the sort realises exactly the precedence chain of the
specification. -/
theorem qle_iff_chainLe (now : Int) (a b : Patient) :
    qle now a b ↔ chainLe now a b := by
  unfold qle queueCmp
  split_ifs with h1 h2 h3 h4 h5 h6 h7
  · constructor
    · intro _
      exact Or.inl (by
        have hb := one_le_statusRank h1.2
        have ha : statusRank a.status = 0 := by simp [h1.1, statusRank]
        omega)
    · intro _
      norm_num
  · constructor
    · intro h
      norm_num at h
    · intro hc
      have hb0 : statusRank b.status = 0 := by simp [h2.1, statusRank]
      have ha1 : 1 ≤ statusRank a.status := one_le_statusRank h2.2
      rcases hc with h | ⟨h, _⟩ <;> omega
  · constructor
    · intro _
      refine Or.inl ?_
      have ha : statusRank a.status = 1 := by simp [h3.1, statusRank]
      have hbnc : b.status ≠ .called := fun hb => h2 ⟨hb, h3.1 ▸ (by simp)⟩
      have hb : statusRank b.status = 2 := statusRank_eq_two hbnc h3.2
      omega
    · intro _
      norm_num
  · constructor
    · intro h
      norm_num at h
    · intro hc
      have hb : statusRank b.status = 1 := by simp [h4.1, statusRank]
      have hanc : a.status ≠ .called := fun ha => h1 ⟨ha, h4.1 ▸ (by simp)⟩
      have ha : statusRank a.status = 2 := statusRank_eq_two hanc h4.2
      rcases hc with h | ⟨h, _⟩ <;> omega
  · constructor
    · intro _
      refine Or.inr ⟨statusRank_eq_of_not_separated h1 h2 h3 h4, Or.inl ?_⟩
      simp [emergencyRank, h5.1, h5.2]
    · intro _
      norm_num
  · constructor
    · intro h
      norm_num at h
    · intro hc
      have hs : statusRank a.status = statusRank b.status :=
        statusRank_eq_of_not_separated h1 h2 h3 h4
      have he : emergencyRank a = 1 := by simp [emergencyRank, h6.2]
      have he' : emergencyRank b = 0 := by simp [emergencyRank, h6.1]
      rcases hc with h | ⟨_, h | ⟨h, _⟩⟩ <;> omega
  · have hs : statusRank a.status = statusRank b.status :=
      statusRank_eq_of_not_separated h1 h2 h3 h4
    have he : emergencyRank a = emergencyRank b :=
      emergencyRank_eq_of_not_separated h5 h6
    constructor
    · intro h
      refine Or.inr ⟨hs, Or.inr ⟨he, Or.inl ?_⟩⟩
      rcases lt_or_eq_of_le (sub_nonpos.mp h) with h' | h'
      · exact h'
      · exact absurd h' h7
    · intro hc
      rcases hc with h | ⟨_, h | ⟨_, h | ⟨h, _⟩⟩⟩
      · omega
      · omega
      · linarith
      · exact absurd h.symm h7
  · have hs : statusRank a.status = statusRank b.status :=
      statusRank_eq_of_not_separated h1 h2 h3 h4
    have he : emergencyRank a = emergencyRank b :=
      emergencyRank_eq_of_not_separated h5 h6
    have hscore : calculatePriorityScore now a = calculatePriorityScore now b := by
      by_contra hne
      exact h7 fun h => hne h.symm
    constructor
    · intro h
      refine Or.inr ⟨hs, Or.inr ⟨he, Or.inr ⟨hscore, ?_⟩⟩⟩
      have := sub_nonpos.mp h
      exact_mod_cast this
    · intro hc
      rcases hc with h | ⟨_, h | ⟨_, h | ⟨_, h⟩⟩⟩
      · omega
      · omega
      · rw [hscore] at h
        exact absurd rfl (ne_of_gt h)
      · rw [sub_nonpos]
        exact_mod_cast h

/-- The chain relation is total. -/
theorem chainLe_total (now : Int) (a b : Patient) :
    chainLe now a b ∨ chainLe now b a := by
  unfold chainLe
  rcases lt_trichotomy (statusRank a.status) (statusRank b.status) with h | h | h
  · exact Or.inl (Or.inl h)
  · rcases lt_trichotomy (emergencyRank a) (emergencyRank b) with h' | h' | h'
    · exact Or.inl (Or.inr ⟨h, Or.inl h'⟩)
    · rcases lt_trichotomy (calculatePriorityScore now a) (calculatePriorityScore now b)
        with h'' | h'' | h''
      · exact Or.inr (Or.inr ⟨h.symm, Or.inr ⟨h'.symm, Or.inl h''⟩⟩)
      · rcases le_total a.arrivalTime b.arrivalTime with h''' | h'''
        · exact Or.inl (Or.inr ⟨h, Or.inr ⟨h', Or.inr ⟨h'', h'''⟩⟩⟩)
        · exact Or.inr (Or.inr ⟨h.symm, Or.inr ⟨h'.symm, Or.inr ⟨h''.symm, h'''⟩⟩⟩)
      · exact Or.inl (Or.inr ⟨h, Or.inr ⟨h', Or.inl h''⟩⟩)
    · exact Or.inr (Or.inr ⟨h.symm, Or.inl h'⟩)
  · exact Or.inr (Or.inl h)

/-- The chain relation is transitive. -/
theorem chainLe_trans (now : Int) (a b c : Patient) :
    chainLe now a b → chainLe now b c → chainLe now a c := by
  unfold chainLe
  intro hab hbc
  rcases hab with h1 | ⟨e1, hab⟩
  · rcases hbc with h2 | ⟨e2, _⟩
    · exact Or.inl (lt_trans h1 h2)
    · exact Or.inl (e2 ▸ h1)
  · rcases hbc with h2 | ⟨e2, hbc⟩
    · exact Or.inl (e1 ▸ h2)
    · refine Or.inr ⟨e1.trans e2, ?_⟩
      rcases hab with h1 | ⟨f1, hab⟩
      · rcases hbc with h2 | ⟨f2, _⟩
        · exact Or.inl (lt_trans h1 h2)
        · exact Or.inl (f2 ▸ h1)
      · rcases hbc with h2 | ⟨f2, hbc⟩
        · exact Or.inl (f1 ▸ h2)
        · refine Or.inr ⟨f1.trans f2, ?_⟩
          rcases hab with h1 | ⟨g1, hab⟩
          · rcases hbc with h2 | ⟨g2, _⟩
            · exact Or.inl (lt_trans h2 h1)
            · exact Or.inl (g2 ▸ h1)
          · rcases hbc with h2 | ⟨g2, hbc⟩
            · exact Or.inl (g1 ▸ h2)
            · exact Or.inr ⟨g1.trans g2, le_trans hab hbc⟩

/-- Totality of `qle`, in the shape the sorting lemmas need. -/
theorem qle_total (now : Int) (a b : Patient) : qle now a b ∨ qle now b a := by
  rcases chainLe_total now a b with h | h
  · exact Or.inl ((qle_iff_chainLe now a b).mpr h)
  · exact Or.inr ((qle_iff_chainLe now b a).mpr h)

/-- Transitivity of `qle`, in the shape the sorting lemmas need. -/
theorem qle_trans (now : Int) (a b c : Patient) :
    qle now a b → qle now b c → qle now a c := by
  intro h1 h2
  exact (qle_iff_chainLe now a c).mpr
    (chainLe_trans now a b c ((qle_iff_chainLe now a b).mp h1)
      ((qle_iff_chainLe now b c).mp h2))

instance (now : Int) : IsTotal Patient (qle now) :=
  ⟨qle_total now⟩

instance (now : Int) : IsTrans Patient (qle now) :=
  ⟨fun a b c => qle_trans now a b c⟩

/-- Lookup `state.patients.find(p => p.id === patientId)`. -/
def findPatient (st : QueueState) (pid : String) : Option Patient :=
  st.patients.find? (fun p => decide (p.id = pid))

/-- Lookup `state.prescriptions.find(p => p.id === prescriptionId)`. -/
def findPrescription (st : QueueState) (qid : String) : Option Prescription :=
  st.prescriptions.find? (fun p => decide (p.id = qid))

/-- Lookup `state.receipts.find(r => r.id === receiptId)`. -/
def findReceipt (st : QueueState) (rid : String) : Option VisitReceipt :=
  st.receipts.find? (fun r => decide (r.id = rid))

/-- Reducer case `REGISTER_PATIENT`: append the new patient and re-sort. -/
def dispatchRegister (now : Int) (st : QueueState) (p : Patient) : QueueState :=
  { st with patients := sortQueueByPriority now (st.patients ++ [p]) none }

/-- Reducer case `UPDATE_PATIENT`: replace the patient with the same id and
re-sort the whole list (no department filter). -/
def dispatchUpdatePatient (now : Int) (st : QueueState) (patient : Patient) : QueueState :=
  { st with
    patients :=
      sortQueueByPriority now
        (st.patients.map (fun p => if p.id = patient.id then patient else p)) none }

/-- Reducer case `UPDATE_PRESCRIPTION`: replace the prescription with the same id. -/
def dispatchUpdatePrescription (st : QueueState) (pr : Prescription) : QueueState :=
  { st with
    prescriptions := st.prescriptions.map (fun p => if p.id = pr.id then pr else p) }

/-- Reducer case `ADD_PRESCRIPTION`: append. -/
def dispatchAddPrescription (st : QueueState) (pr : Prescription) : QueueState :=
  { st with prescriptions := st.prescriptions ++ [pr] }

/-- Reducer case `ADD_RECEIPT`: append. -/
def dispatchAddReceipt (st : QueueState) (r : VisitReceipt) : QueueState :=
  { st with receipts := st.receipts ++ [r] }

/-- Reducer case `UPDATE_RECEIPT`: replace the receipt with the same id. -/
def dispatchUpdateReceipt (st : QueueState) (r : VisitReceipt) : QueueState :=
  { st with receipts := st.receipts.map (fun x => if x.id = r.id then r else x) }

/-- The registration payload: every `Patient` field the caller supplies
(`Omit` of id, token, status, arrival time, escalation, flags and trust). -/
structure RegistrationData where
  name : String
  age : Nat
  department : Department
  symptom : String
  symptomSeverity : SymptomSeverity
  vulnerabilities : VulnerabilityFlags
  visitType : VisitType
  receiptId : Option String
  consultationEndTime : Option Int
  diagnosis : Option String
  prescriptionId : Option String
deriving DecidableEq

/-- The patient record built inside `registerPatient`: fresh uuid, token from
the incremented department counter, `waiting` status, arrival stamped `now`,
zero escalation, all flags false, and a generated trust score. -/
def newPatientOf (st : QueueState) (data : RegistrationData) (newId : String)
    (now : Int) (r : ℚ) : Patient :=
  { id := newId
    tokenNumber :=
      generateTokenNumber data.department (counterOf st.tokenCounters data.department + 1)
    name := data.name
    age := data.age
    department := data.department
    symptom := data.symptom
    symptomSeverity := data.symptomSeverity
    vulnerabilities := data.vulnerabilities
    visitType := data.visitType
    status := .waiting
    arrivalTime := now
    escalationLevel := 0
    isEmergency := false
    isLateArrival := false
    trustScore := generateTrustScore r
    receiptId := data.receiptId
    consultationEndTime := data.consultationEndTime
    diagnosis := data.diagnosis
    prescriptionId := data.prescriptionId }

/-- `registerPatient`: build the new patient, write the incremented token
counter, and dispatch `REGISTER_PATIENT`.  Returns the new patient id. -/
def registerPatient (st : QueueState) (data : RegistrationData) (newId : String)
    (now : Int) (r : ℚ) : QueueState × String :=
  let department := data.department
  let newCounter := counterOf st.tokenCounters department + 1
  let newPatient := newPatientOf st data newId now r
  let st1 := { st with tokenCounters := setCounter st.tokenCounters department newCounter }
  (dispatchRegister now st1 newPatient, newId)

/-- `updateStatus`: overwrite the status of the found patient. -/
def updateStatus (st : QueueState) (pid : String) (status : PatientStatus)
    (now : Int) : QueueState :=
  match findPatient st pid with
  | none => st
  | some p => dispatchUpdatePatient now st { p with status := status }

/-- `markEmergency`: set the emergency flag and the `emergency` status. -/
def markEmergency (st : QueueState) (pid : String) (now : Int) : QueueState :=
  match findPatient st pid with
  | none => st
  | some p => dispatchUpdatePatient now st { p with isEmergency := true, status := .emergency }

/-- `resolveEmergency`: clear the emergency flag and return to `waiting`. -/
def resolveEmergency (st : QueueState) (pid : String) (now : Int) : QueueState :=
  match findPatient st pid with
  | none => st
  | some p => dispatchUpdatePatient now st { p with isEmergency := false, status := .waiting }

/-- `markLateArrival`: set the late flag, status untouched. -/
def markLateArrival (st : QueueState) (pid : String) (now : Int) : QueueState :=
  match findPatient st pid with
  | none => st
  | some p => dispatchUpdatePatient now st { p with isLateArrival := true }

/-- Outcome of an `escalate` call, so the caller can tell the failure kinds
apart. -/
inductive EscalateOutcome
  | notFound
  | invalidInput
  | ok
deriving DecidableEq

/-- `escalate`: store the new escalation level on the found patient.  The
durable store enforces `CHECK (escalation_level >= 0 AND escalation_level <= 2)`
(`src/scripts/create-healthchain-tables.sql`), so an out-of-range level makes
the update fail; the handler then reports the error and dispatches nothing,
leaving the state unchanged. -/
def escalate (st : QueueState) (pid : String) (level : Int) (now : Int) :
    QueueState × EscalateOutcome :=
  match findPatient st pid with
  | none => (st, .notFound)
  | some p =>
    if 0 ≤ level ∧ level ≤ 2 then
      (dispatchUpdatePatient now st { p with escalationLevel := level }, .ok)
    else (st, .invalidInput)

/-- `callNext`: among the `waiting` patients of the department, call the first
one of the priority-sorted list; report (`none`) and change nothing when the
department has no waiting patient. -/
def callNext (st : QueueState) (department : Department) (now : Int) :
    QueueState × Option Patient :=
  let waiting :=
    st.patients.filter (fun p => decide (p.department = department) && decide (p.status = .waiting))
  if waiting.isEmpty then (st, none)
  else
    match sortQueueByPriority now waiting (some department) with
    | [] => (st, none)
    | next :: _ =>
      (dispatchUpdatePatient now st { next with status := .called }, some next)

/-- `startConsultation`: set the status to `consultation`. -/
def startConsultation (st : QueueState) (pid : String) (now : Int) : QueueState :=
  match findPatient st pid with
  | none => st
  | some p => dispatchUpdatePatient now st { p with status := .consultation }

/-- JS `diagnosis || patient.diagnosis`: the supplied text wins unless it is
absent or empty (the empty string is falsy). -/
def jsOrElse (d prior : Option String) : Option String :=
  match d with
  | some s => if s = "" then prior else some s
  | none => prior

/-- The receipt minted by `completeConsultation`. -/
def newReceiptOf (st : QueueState) (patient : Patient) (diagnosis : Option String)
    (rid : String) (now : Int) : VisitReceipt :=
  { id := rid
    patientId := patient.id
    patientName := patient.name
    tokenNumber := patient.tokenNumber
    department := patient.department
    visitDate := now
    doctorRole := deptName patient.department ++ " Physician"
    visitType := patient.visitType
    diagnosis := jsOrElse diagnosis patient.diagnosis
    prescriptionId := patient.prescriptionId
    prescriptionStatus :=
      match patient.prescriptionId with
      | some qid => (findPrescription st qid).map (fun q => q.status)
      | none => none
    status := .active
    scanCount := 0
    createdAt := now }

/-- `completeConsultation`: mint a receipt for the found patient, mark the
patient completed with the receipt back-reference, the merged diagnosis and
the consultation-end stamp, then dispatch `UPDATE_PATIENT` and `ADD_RECEIPT`. -/
def completeConsultation (st : QueueState) (pid : String) (diagnosis : Option String)
    (rid : String) (now : Int) : QueueState :=
  match findPatient st pid with
  | none => st
  | some patient =>
    let newReceipt := newReceiptOf st patient diagnosis rid now
    let updatedPatient :=
      { patient with
        status := .completed
        receiptId := some rid
        diagnosis := jsOrElse diagnosis patient.diagnosis
        consultationEndTime := some now }
    dispatchAddReceipt (dispatchUpdatePatient now st updatedPatient) newReceipt

/-- `removePatient`: unconditional delete by id. -/
def removePatient (st : QueueState) (pid : String) : QueueState :=
  { st with patients := st.patients.filter (fun p => decide (p.id ≠ pid)) }

/-- `transferDepartment`: move the found patient to the new department with a
fresh token from that department counter. -/
def transferDepartment (st : QueueState) (pid : String) (newDepartment : Department)
    (now : Int) : QueueState :=
  match findPatient st pid with
  | none => st
  | some p =>
    let newCounter := counterOf st.tokenCounters newDepartment + 1
    let newToken := generateTokenNumber newDepartment newCounter
    let st1 :=
      { st with tokenCounters := setCounter st.tokenCounters newDepartment newCounter }
    dispatchUpdatePatient now st1
      { p with department := newDepartment, tokenNumber := newToken }

/-- The prescription payload (`Omit` of id and creation time). -/
structure PrescriptionData where
  patientId : String
  patientName : String
  tokenNumber : String
  department : Department
  doctorDepartment : String
  diagnosis : String
  medicines : List PrescriptionMedicine
  status : PrescriptionStatus
  aiGenerated : Bool
  doctorVerified : Bool
  forwardedAt : Option Int
  dispensedAt : Option Int
deriving DecidableEq

/-- The prescription record built inside `createPrescription`. -/
def newPrescriptionOf (data : PrescriptionData) (newId : String) (now : Int) : Prescription :=
  { id := newId
    patientId := data.patientId
    patientName := data.patientName
    tokenNumber := data.tokenNumber
    department := data.department
    doctorDepartment := data.doctorDepartment
    diagnosis := data.diagnosis
    medicines := data.medicines
    status := data.status
    aiGenerated := data.aiGenerated
    doctorVerified := data.doctorVerified
    createdAt := now
    forwardedAt := data.forwardedAt
    dispensedAt := data.dispensedAt }

/-- `createPrescription`: append the prescription and back-link the owning
patient (prescription id and diagnosis) when that patient exists. -/
def createPrescription (st : QueueState) (data : PrescriptionData) (newId : String)
    (now : Int) : QueueState × String :=
  let prescription := newPrescriptionOf data newId now
  let st1 := dispatchAddPrescription st prescription
  let st2 :=
    match findPatient st data.patientId with
    | none => st1
    | some patient =>
      dispatchUpdatePatient now st1
        { patient with prescriptionId := some newId, diagnosis := some prescription.diagnosis }
  (st2, newId)

/-- `verifyPrescription`: set `doctorVerified` and move to `verified` (the
source guards only on existence, not on the current status). -/
def verifyPrescription (st : QueueState) (qid : String) : QueueState :=
  match findPrescription st qid with
  | none => st
  | some pr =>
    dispatchUpdatePrescription st { pr with doctorVerified := true, status := .verified }

/-- `forwardPrescription`: move to `forwarded` and stamp `forwardedAt` (again
guarded only on existence). -/
def forwardPrescription (st : QueueState) (qid : String) (now : Int) : QueueState :=
  match findPrescription st qid with
  | none => st
  | some pr =>
    dispatchUpdatePrescription st { pr with status := .forwarded, forwardedAt := some now }

/-- `dispenseMedicine`: move to `dispensed`, stamp `dispensedAt` with the
current time, and propagate the status snapshot into every receipt that links
this prescription (guarded only on existence; there is no already-dispensed
check). -/
def dispenseMedicine (st : QueueState) (qid : String) (now : Int) : QueueState :=
  match findPrescription st qid with
  | none => st
  | some pr =>
    let st1 := dispatchUpdatePrescription st { pr with status := .dispensed, dispensedAt := some now }
    { st1 with
      receipts :=
        st1.receipts.map (fun r =>
          if r.prescriptionId = some qid then { r with prescriptionStatus := some .dispensed }
          else r) }

/-- Result of one `scanReceipt` call: the new state, the receipt handed back to
the caller, and whether the fraud alert was raised. -/
structure ScanResult where
  state : QueueState
  returned : Option VisitReceipt
  fraudSignal : Bool

/-- `scanReceipt`: increment the scan count, flip the status to `fulfilled`
when the new count exceeds one, store the updated receipt, return it, and
raise the fraud alert exactly when the count before the call was at least
one.  Returns `none` with the state untouched when the id is unknown. -/
def scanReceipt (st : QueueState) (rid : String) : ScanResult :=
  match findReceipt st rid with
  | none => { state := st, returned := none, fraudSignal := false }
  | some receipt =>
    let newScanCount := receipt.scanCount + 1
    let updatedReceipt :=
      { receipt with
        scanCount := newScanCount
        status := if newScanCount > 1 then .fulfilled else receipt.status }
    { state := dispatchUpdateReceipt st updatedReceipt
      returned := some updatedReceipt
      fraudSignal := decide (receipt.scanCount ≥ 1) }

/-- Iterated scanning of one receipt (`scanReceipt` called `k` times). -/
def scanIter (rid : String) (st : QueueState) : Nat → QueueState
  | 0 => st
  | k + 1 => (scanReceipt (scanIter rid st k) rid).state

/-- One staff action, carrying the environment values (fresh uuid, clock
reading, random draw) the corresponding handler consumes. -/
inductive Action
  | register (data : RegistrationData) (newId : String) (now : Int) (r : ℚ)
  | setStatus (pid : String) (status : PatientStatus) (now : Int)
  | emergency (pid : String) (now : Int)
  | resolve (pid : String) (now : Int)
  | late (pid : String) (now : Int)
  | escalateTo (pid : String) (level : Int) (now : Int)
  | next (department : Department) (now : Int)
  | start (pid : String) (now : Int)
  | complete (pid : String) (diagnosis : Option String) (rid : String) (now : Int)
  | remove (pid : String)
  | transfer (pid : String) (newDepartment : Department) (now : Int)
  | prescribe (data : PrescriptionData) (newId : String) (now : Int)
  | verify (qid : String)
  | forward (qid : String) (now : Int)
  | dispense (qid : String) (now : Int)
  | scan (rid : String)

/-- State transition of one action: each constructor funnels into the
corresponding handler. -/
def applyAction (st : QueueState) : Action → QueueState
  | .register data newId now r => (registerPatient st data newId now r).1
  | .setStatus pid status now => updateStatus st pid status now
  | .emergency pid now => markEmergency st pid now
  | .resolve pid now => resolveEmergency st pid now
  | .late pid now => markLateArrival st pid now
  | .escalateTo pid level now => (escalate st pid level now).1
  | .next department now => (callNext st department now).1
  | .start pid now => startConsultation st pid now
  | .complete pid diagnosis rid now => completeConsultation st pid diagnosis rid now
  | .remove pid => removePatient st pid
  | .transfer pid newDepartment now => transferDepartment st pid newDepartment now
  | .prescribe data newId now => (createPrescription st data newId now).1
  | .verify qid => verifyPrescription st qid
  | .forward qid now => forwardPrescription st qid now
  | .dispense qid now => dispenseMedicine st qid now
  | .scan rid => (scanReceipt st rid).state

/-- A state is reachable when some sequence of staff actions produces it from
the empty initial state. -/
def Reachable (st : QueueState) : Prop :=
  ∃ actions : List Action, st = actions.foldl applyAction initialState

/-- The chain relation is reflexive. -/
theorem chainLe_refl (now : Int) (a : Patient) : chainLe now a a :=
  Or.inr ⟨rfl, Or.inr ⟨rfl, Or.inr ⟨rfl, le_refl _⟩⟩⟩

/-- The stable sort of the active part is ordered by the precedence chain. -/
theorem pairwise_chainLe_insertionSort (now : Int) (l : List Patient) :
    (List.insertionSort (qle now) l).Pairwise (chainLe now) :=
  (List.sorted_insertionSort (qle now) l).imp
    (fun h => (qle_iff_chainLe now _ _).mp h)

/-- Splitting off the completed patients and re-glueing is a permutation. -/
theorem active_append_completed_perm (l : List Patient) :
    (l.filter (fun p => decide (p.status ≠ .completed)) ++
        l.filter (fun p => decide (p.status = .completed))).Perm l := by
  have h := List.filter_append_perm (fun p => decide (p.status ≠ PatientStatus.completed)) l
  have hfun :
      (fun p : Patient => !decide (p.status ≠ PatientStatus.completed)) =
        fun p : Patient => decide (p.status = PatientStatus.completed) := by
    funext p
    by_cases hp : p.status = PatientStatus.completed <;> simp [hp]
  rw [hfun] at h
  exact h

/-- The sorted queue is a permutation of the department-filtered snapshot. -/
theorem sortQueueByPriority_perm (now : Int) (ps : List Patient) (d : Option Department) :
    (sortQueueByPriority now ps d).Perm (deptFilter ps d) := by
  unfold sortQueueByPriority
  exact ((List.perm_insertionSort _ _).append (List.Perm.refl _)).trans
    (active_append_completed_perm (deptFilter ps d))

/-- Department-filtering only drops patients. -/
theorem mem_of_mem_deptFilter {q : Patient} {ps : List Patient} {d : Option Department}
    (h : q ∈ deptFilter ps d) : q ∈ ps := by
  cases d with
  | none => exact h
  | some dep => exact (List.mem_filter.mp h).1

/-- Sorting only permutes the department-filtered snapshot, so membership is
preserved. -/
theorem mem_of_mem_sortQueueByPriority {now : Int} {q : Patient} {ps : List Patient}
    {d : Option Department} (h : q ∈ sortQueueByPriority now ps d) : q ∈ ps :=
  mem_of_mem_deptFilter ((sortQueueByPriority_perm now ps d).mem_iff.mp h)

/-- Conversely, with no department filter every snapshot member survives the
sort. -/
theorem mem_sortQueueByPriority_of_mem {now : Int} {q : Patient} {ps : List Patient}
    (h : q ∈ ps) : q ∈ sortQueueByPriority now ps none :=
  (sortQueueByPriority_perm now ps none).mem_iff.mpr h

/-- Replacing every element whose id matches the needle moves `find?` to the
replacement. -/
theorem find?_replace_by_id {α : Type} (idOf : α → String) (rid : String) (y : α)
    (hy : idOf y = rid) (l : List α) :
    List.find? (fun x => decide (idOf x = rid))
        (l.map fun x => if idOf x = idOf y then y else x) =
      (List.find? (fun x => decide (idOf x = rid)) l).map (fun _ => y) := by
  induction l with
  | nil => rfl
  | cons a t ih =>
    by_cases h : idOf a = rid
    · have heq : idOf a = idOf y := by rw [h, hy]
      simp only [List.map_cons, if_pos heq]
      rw [List.find?_cons_of_pos _ (by simp [hy]), List.find?_cons_of_pos _ (by simp [h])]
      rfl
    · have hne : ¬ idOf a = idOf y := by rw [hy]; exact h
      simp only [List.map_cons, if_neg hne]
      rw [List.find?_cons_of_neg _ (by simp [h]), List.find?_cons_of_neg _ (by simp [h])]
      exact ih

/-- Reading the counter after writing the same department gives the new value. -/
theorem counterOf_setCounter_self (t : TokenCounters) (d : Department) (n : Nat) :
    counterOf (setCounter t d n) d = n := by
  cases d <;> rfl

/-- Reading the counter of a different department is unaffected by the write. -/
theorem counterOf_setCounter_ne (t : TokenCounters) {d d' : Department} (n : Nat)
    (h : d' ≠ d) : counterOf (setCounter t d n) d' = counterOf t d' := by
  cases d <;> cases d' <;> first | rfl | exact absurd rfl h

/-- Membership in the patient list after an `UPDATE_PATIENT` dispatch: every
element is either the replacement or an untouched original. -/
theorem mem_dispatchUpdatePatient {now : Int} {st : QueueState} {patient q : Patient}
    (hq : q ∈ (dispatchUpdatePatient now st patient).patients) :
    q = patient ∨ q ∈ st.patients := by
  have h1 : q ∈ st.patients.map (fun p => if p.id = patient.id then patient else p) :=
    mem_of_mem_sortQueueByPriority hq
  obtain ⟨x, hx, hfx⟩ := List.mem_map.mp h1
  by_cases hid : x.id = patient.id
  · rw [if_pos hid] at hfx
    exact Or.inl hfx.symm
  · rw [if_neg hid] at hfx
    exact Or.inr (hfx ▸ hx)

/-- Membership after a `REGISTER_PATIENT` dispatch. -/
theorem mem_dispatchRegister {now : Int} {st : QueueState} {p q : Patient}
    (hq : q ∈ (dispatchRegister now st p).patients) :
    q = p ∨ q ∈ st.patients := by
  have h1 : q ∈ st.patients ++ [p] := mem_of_mem_sortQueueByPriority hq
  rcases List.mem_append.mp h1 with h | h
  · exact Or.inr h
  · exact Or.inl (List.mem_singleton.mp h)

/-- Re-sorting an already sorted queue returns it unchanged. -/
theorem sortQueueByPriority_idem (now : Int) (ps : List Patient) (d : Option Department) :
    sortQueueByPriority now (sortQueueByPriority now ps d) d = sortQueueByPriority now ps d := by
  have hAperm :
      (List.insertionSort (qle now)
            ((deptFilter ps d).filter (fun p => decide (p.status ≠ PatientStatus.completed)))).Perm
        ((deptFilter ps d).filter (fun p => decide (p.status ≠ PatientStatus.completed))) :=
    List.perm_insertionSort _ _
  set A :=
    List.insertionSort (qle now)
      ((deptFilter ps d).filter (fun p => decide (p.status ≠ PatientStatus.completed))) with hA
  set C := (deptFilter ps d).filter (fun p => decide (p.status = PatientStatus.completed)) with hC
  have hAactive : ∀ p ∈ A, p.status ≠ PatientStatus.completed := by
    intro p hp
    have := List.mem_filter.mp (hAperm.mem_iff.mp hp)
    simpa using this.2
  have hCdone : ∀ p ∈ C, p.status = PatientStatus.completed := by
    intro p hp
    have := List.mem_filter.mp hp
    simpa using this.2
  have hmemF : ∀ p ∈ A ++ C, p ∈ deptFilter ps d := by
    intro p hp
    rcases List.mem_append.mp hp with h | h
    · exact (List.mem_filter.mp (hAperm.mem_iff.mp h)).1
    · exact (List.mem_filter.mp h).1
  have hsort : sortQueueByPriority now ps d = A ++ C := rfl
  rw [hsort]
  have hF : deptFilter (A ++ C) d = A ++ C := by
    cases d with
    | none => rfl
    | some dep =>
      refine List.filter_eq_self.mpr ?_
      intro p hp
      have := List.mem_filter.mp (hmemF p hp)
      exact this.2
  show
      List.insertionSort (qle now)
          ((deptFilter (A ++ C) d).filter (fun p => decide (p.status ≠ PatientStatus.completed))) ++
        (deptFilter (A ++ C) d).filter (fun p => decide (p.status = PatientStatus.completed)) =
      A ++ C
  rw [hF, List.filter_append, List.filter_append]
  have h1 : A.filter (fun p => decide (p.status ≠ PatientStatus.completed)) = A :=
    List.filter_eq_self.mpr (fun p hp => by simpa using hAactive p hp)
  have h2 : C.filter (fun p => decide (p.status ≠ PatientStatus.completed)) = [] :=
    List.filter_eq_nil_iff.mpr (fun p hp => by simpa using hCdone p hp)
  have h3 : A.filter (fun p => decide (p.status = PatientStatus.completed)) = [] :=
    List.filter_eq_nil_iff.mpr (fun p hp => by simpa using hAactive p hp)
  have h4 : C.filter (fun p => decide (p.status = PatientStatus.completed)) = C :=
    List.filter_eq_self.mpr (fun p hp => by simpa using hCdone p hp)
  rw [h1, h2, h3, h4, List.append_nil, List.nil_append]
  congr 1
  exact List.Sorted.insertionSort_eq (List.sorted_insertionSort (qle now) _)

/-- A baseline concrete patient shared by the concrete evaluations below. -/
def samplePatient : Patient :=
  { id := "p1"
    tokenNumber := "GM-001"
    name := "A"
    age := 30
    department := .general_medicine
    symptom := "fever"
    symptomSeverity := .mild
    vulnerabilities := { elderly := false, pregnant := false, disabled := false, chronicCondition := false }
    visitType := .routine
    status := .waiting
    arrivalTime := 0
    escalationLevel := 0
    isEmergency := false
    isLateArrival := false
    trustScore := 50
    receiptId := none
    consultationEndTime := none
    diagnosis := none
    prescriptionId := none }

/-- C1: for every snapshot and optional department filter, the sorted queue is
the active patients ordered by the precedence chain (called first, then
consultation, then emergency flag, then score descending, then arrival
ascending), followed by the completed patients in their encounter order. -/
theorem C1_sorted_queue_precedence (now : Int) (ps : List Patient) (d : Option Department) :
    ∃ act : List Patient,
      sortQueueByPriority now ps d =
          act ++ (deptFilter ps d).filter (fun p => decide (p.status = PatientStatus.completed)) ∧
        act.Perm ((deptFilter ps d).filter (fun p => decide (p.status ≠ PatientStatus.completed))) ∧
        act.Pairwise (chainLe now) ∧
        ∀ p ∈ act, p.status ≠ PatientStatus.completed := by
  refine ⟨_, rfl, List.perm_insertionSort _ _, pairwise_chainLe_insertionSort now _, ?_⟩
  intro p hp
  have h1 := (List.perm_insertionSort (qle now) _).mem_iff.mp hp
  have h2 := List.mem_filter.mp h1
  simpa using h2.2

/-- C9 counterexample: two distinct patients that agree on every attribute the
comparator consults compare equal in both directions, so the comparator is not
a strict total order on patients (trichotomy fails). -/
theorem C9_strict_total_order_counterexample :
    samplePatient ≠ { samplePatient with id := "p2" } ∧
      queueCmp 0 samplePatient { samplePatient with id := "p2" } = 0 ∧
      queueCmp 0 { samplePatient with id := "p2" } samplePatient = 0 := by
  have hs : calculatePriorityScore 0 { samplePatient with id := "p2" } =
      calculatePriorityScore 0 samplePatient := rfl
  refine ⟨by decide, ?_, ?_⟩
  · simp [queueCmp, samplePatient, hs]
    intro h
    exact absurd rfl h
  · simp [queueCmp, samplePatient, hs]
    intro h
    exact absurd rfl h

/-- C9 (amended): the comparator is a total preorder (total and transitive, its
boolean form agreeing with the precedence chain), and sorting is deterministic
for a fixed snapshot and clock reading: re-sorting the sorted queue returns an
identical sequence. -/
theorem C9_comparator_total_preorder_and_sort_deterministic (now : Int) :
    (∀ a b : Patient, chainLe now a b ∨ chainLe now b a) ∧
      (∀ a b c : Patient, chainLe now a b → chainLe now b c → chainLe now a c) ∧
      (∀ a b : Patient, qle now a b ↔ chainLe now a b) ∧
      ∀ (ps : List Patient) (d : Option Department),
        sortQueueByPriority now (sortQueueByPriority now ps d) d =
          sortQueueByPriority now ps d :=
  ⟨chainLe_total now, chainLe_trans now, qle_iff_chainLe now, sortQueueByPriority_idem now⟩

/-- Looking a receipt up after an `UPDATE_RECEIPT` dispatch returns the
replacement whenever the lookup found something before. -/
theorem findReceipt_dispatchUpdateReceipt (st : QueueState) (y : VisitReceipt)
    (rid : String) (hy : y.id = rid) :
    findReceipt (dispatchUpdateReceipt st y) rid = (findReceipt st rid).map (fun _ => y) := by
  unfold findReceipt dispatchUpdateReceipt
  exact find?_replace_by_id (fun r => r.id) rid y hy st.receipts

/-- Looking a prescription up after an `UPDATE_PRESCRIPTION` dispatch returns
the replacement whenever the lookup found something before. -/
theorem findPrescription_dispatchUpdatePrescription (st : QueueState) (y : Prescription)
    (qid : String) (hy : y.id = qid) :
    findPrescription (dispatchUpdatePrescription st y) qid =
      (findPrescription st qid).map (fun _ => y) := by
  unfold findPrescription dispatchUpdatePrescription
  exact find?_replace_by_id (fun q => q.id) qid y hy st.prescriptions

/-- A found receipt carries the id it was looked up by. -/
theorem findReceipt_id {st : QueueState} {rid : String} {r : VisitReceipt}
    (h : findReceipt st rid = some r) : r.id = rid := by
  unfold findReceipt at h
  have h2 := List.find?_some h
  exact of_decide_eq_true h2

/-- A found prescription carries the id it was looked up by. -/
theorem findPrescription_id {st : QueueState} {qid : String} {q : Prescription}
    (h : findPrescription st qid = some q) : q.id = qid := by
  unfold findPrescription at h
  have h2 := List.find?_some h
  exact of_decide_eq_true h2

/-- A found patient carries the id it was looked up by. -/
theorem findPatient_id {st : QueueState} {pid : String} {p : Patient}
    (h : findPatient st pid = some p) : p.id = pid := by
  unfold findPatient at h
  have h2 := List.find?_some h
  exact of_decide_eq_true h2

/-- A found patient is a member of the snapshot. -/
theorem findPatient_mem {st : QueueState} {pid : String} {p : Patient}
    (h : findPatient st pid = some p) : p ∈ st.patients := by
  unfold findPatient at h
  exact List.mem_of_find?_eq_some h

/-- C2: scanning an existing receipt returns it with the count incremented by
one, raises the fraud signal and forces status `fulfilled` exactly when the
prior count was at least one, leaves the status alone on the first scan, and
after `k` scans of a fresh receipt the stored count equals `k`. -/
theorem C2_scanReceipt_increments_and_flags (st : QueueState) (rid : String)
    (r : VisitReceipt) (hfind : findReceipt st rid = some r) :
    (∃ r', (scanReceipt st rid).returned = some r' ∧
        r'.scanCount = r.scanCount + 1 ∧
        ((scanReceipt st rid).fraudSignal = true ↔ 1 ≤ r.scanCount) ∧
        (1 ≤ r.scanCount → r'.status = ReceiptStatus.fulfilled) ∧
        (r.scanCount = 0 → r'.status = r.status) ∧
        findReceipt (scanReceipt st rid).state rid = some r') ∧
      (r.scanCount = 0 → ∀ k : Nat,
        ∃ rk, findReceipt (scanIter rid st k) rid = some rk ∧
          rk.scanCount = (k : Int) ∧
          (2 ≤ k → rk.status = ReceiptStatus.fulfilled) ∧
          (k ≤ 1 → rk.status = r.status)) := by
  have hrid : r.id = rid := findReceipt_id hfind
  have hscan : scanReceipt st rid =
      { state :=
          dispatchUpdateReceipt st
            { r with
              scanCount := r.scanCount + 1
              status := if r.scanCount + 1 > 1 then .fulfilled else r.status }
        returned :=
          some
            { r with
              scanCount := r.scanCount + 1
              status := if r.scanCount + 1 > 1 then .fulfilled else r.status }
        fraudSignal := decide (r.scanCount ≥ 1) } := by
    unfold scanReceipt
    rw [hfind]
  constructor
  · refine
      ⟨{ r with
          scanCount := r.scanCount + 1
          status := if r.scanCount + 1 > 1 then .fulfilled else r.status },
        by rw [hscan], rfl, ?_, ?_, ?_, ?_⟩
    · rw [hscan]
      simp
    · intro h
      show (if r.scanCount + 1 > 1 then ReceiptStatus.fulfilled else r.status) = _
      rw [if_pos (by omega)]
    · intro h
      show (if r.scanCount + 1 > 1 then ReceiptStatus.fulfilled else r.status) = _
      rw [if_neg (by omega)]
    · rw [hscan]
      rw [findReceipt_dispatchUpdateReceipt st
          { r with
            scanCount := r.scanCount + 1
            status := if r.scanCount + 1 > 1 then .fulfilled else r.status } rid hrid,
        hfind]
      rfl
  · intro h0 k
    induction k with
    | zero =>
      refine ⟨r, hfind, by simpa using h0, ?_, fun _ => rfl⟩
      intro h
      omega
    | succ k ih =>
      obtain ⟨rk, hfk, hcount, _, hf1⟩ := ih
      have hridk : rk.id = rid := findReceipt_id hfk
      have hscank : scanReceipt (scanIter rid st k) rid =
          { state :=
              dispatchUpdateReceipt (scanIter rid st k)
                { rk with
                  scanCount := rk.scanCount + 1
                  status := if rk.scanCount + 1 > 1 then .fulfilled else rk.status }
            returned :=
              some
                { rk with
                  scanCount := rk.scanCount + 1
                  status := if rk.scanCount + 1 > 1 then .fulfilled else rk.status }
            fraudSignal := decide (rk.scanCount ≥ 1) } := by
        unfold scanReceipt
        rw [hfk]
      refine
        ⟨{ rk with
            scanCount := rk.scanCount + 1
            status := if rk.scanCount + 1 > 1 then .fulfilled else rk.status },
          ?_, ?_, ?_, ?_⟩
      · show findReceipt (scanReceipt (scanIter rid st k) rid).state rid = _
        rw [hscank]
        rw [findReceipt_dispatchUpdateReceipt (scanIter rid st k)
            { rk with
              scanCount := rk.scanCount + 1
              status := if rk.scanCount + 1 > 1 then .fulfilled else rk.status } rid hridk,
          hfk]
        rfl
      · show rk.scanCount + 1 = _
        rw [hcount]
        push_cast
        ring
      · intro h
        show (if rk.scanCount + 1 > 1 then ReceiptStatus.fulfilled else rk.status) = _
        rw [if_pos (by omega)]
      · intro h
        have hk0 : k = 0 := by omega
        show (if rk.scanCount + 1 > 1 then ReceiptStatus.fulfilled else rk.status) = _
        rw [if_neg (by rw [hcount, hk0]; norm_num), hf1 (by omega)]

/-- A concrete registration payload shared by the concrete traces below. -/
def sampleRegistration : RegistrationData :=
  { name := "A"
    age := 30
    department := .general_medicine
    symptom := "fever"
    symptomSeverity := .mild
    vulnerabilities := { elderly := false, pregnant := false, disabled := false, chronicCondition := false }
    visitType := .routine
    receiptId := none
    consultationEndTime := none
    diagnosis := none
    prescriptionId := none }

/-- A concrete prescription payload, created `pending` and unverified as the
doctor workflow starts. -/
def samplePrescriptionData : PrescriptionData :=
  { patientId := "p1"
    patientName := "A"
    tokenNumber := "GM-001"
    department := .general_medicine
    doctorDepartment := "General Medicine"
    diagnosis := "flu"
    medicines := []
    status := .pending
    aiGenerated := true
    doctorVerified := false
    forwardedAt := none
    dispensedAt := none }

/-- Creating a prescription appends it to the prescription list, whether or not
the owning patient exists. -/
theorem createPrescription_prescriptions (st : QueueState) (data : PrescriptionData)
    (newId : String) (now : Int) :
    (createPrescription st data newId now).1.prescriptions =
      st.prescriptions ++ [newPrescriptionOf data newId now] := by
  unfold createPrescription
  cases findPatient st data.patientId <;> rfl

/-- C3 (amended): along the canonical chain the operations behave as specified:
creation leaves the prescription `pending` and unverified, `verify` makes it
`verified` with `doctorVerified` set, `forward` makes it `forwarded` stamping
`forwardedAt`, and `dispense` makes it `dispensed` stamping `dispensedAt`;
but the operations themselves are unguarded, so this order is not enforced. -/
theorem C3_prescription_happy_path (st : QueueState) (data : PrescriptionData)
    (newId : String) (now0 now1 now2 : Int)
    (hpending : data.status = PrescriptionStatus.pending)
    (hver : data.doctorVerified = false)
    (hfresh : ∀ q ∈ st.prescriptions, q.id ≠ newId) :
    ∃ q1 q2 q3 q4 : Prescription,
      findPrescription (createPrescription st data newId now0).1 newId = some q1 ∧
        q1.status = PrescriptionStatus.pending ∧ q1.doctorVerified = false ∧
        findPrescription
            (verifyPrescription (createPrescription st data newId now0).1 newId) newId =
          some q2 ∧
        q2.status = PrescriptionStatus.verified ∧ q2.doctorVerified = true ∧
        findPrescription
            (forwardPrescription
              (verifyPrescription (createPrescription st data newId now0).1 newId) newId now1)
            newId =
          some q3 ∧
        q3.status = PrescriptionStatus.forwarded ∧ q3.doctorVerified = true ∧
        q3.forwardedAt = some now1 ∧
        findPrescription
            (dispenseMedicine
              (forwardPrescription
                (verifyPrescription (createPrescription st data newId now0).1 newId) newId now1)
              newId now2)
            newId =
          some q4 ∧
        q4.status = PrescriptionStatus.dispensed ∧ q4.doctorVerified = true ∧
        q4.dispensedAt = some now2 := by
  have hfind1 :
      findPrescription (createPrescription st data newId now0).1 newId =
        some (newPrescriptionOf data newId now0) := by
    unfold findPrescription
    rw [createPrescription_prescriptions, List.find?_append]
    have hnone : st.prescriptions.find? (fun q => decide (q.id = newId)) = none :=
      List.find?_eq_none.mpr (fun q hq => by simpa using hfresh q hq)
    rw [hnone]
    rw [List.find?_cons_of_pos _ (by simp [newPrescriptionOf])]
    rfl
  set q1 := newPrescriptionOf data newId now0 with hq1
  have hid1 : q1.id = newId := rfl
  set q2 : Prescription := { q1 with doctorVerified := true, status := .verified } with hq2
  have hverify :
      verifyPrescription (createPrescription st data newId now0).1 newId =
        dispatchUpdatePrescription (createPrescription st data newId now0).1 q2 := by
    unfold verifyPrescription
    rw [hfind1]
  have hfind2 :
      findPrescription
          (verifyPrescription (createPrescription st data newId now0).1 newId) newId =
        some q2 := by
    rw [hverify, findPrescription_dispatchUpdatePrescription _ q2 newId hid1, hfind1]
    rfl
  set q3 : Prescription := { q2 with status := .forwarded, forwardedAt := some now1 } with hq3
  have hforward :
      forwardPrescription
          (verifyPrescription (createPrescription st data newId now0).1 newId) newId now1 =
        dispatchUpdatePrescription
          (verifyPrescription (createPrescription st data newId now0).1 newId) q3 := by
    unfold forwardPrescription
    rw [hfind2]
  have hfind3 :
      findPrescription
          (forwardPrescription
            (verifyPrescription (createPrescription st data newId now0).1 newId) newId now1)
          newId =
        some q3 := by
    rw [hforward, findPrescription_dispatchUpdatePrescription _ q3 newId hid1, hfind2]
    rfl
  set q4 : Prescription := { q3 with status := .dispensed, dispensedAt := some now2 } with hq4
  have hfind4 :
      findPrescription
          (dispenseMedicine
            (forwardPrescription
              (verifyPrescription (createPrescription st data newId now0).1 newId) newId now1)
            newId now2)
          newId =
        some q4 := by
    unfold dispenseMedicine
    rw [hfind3]
    show findPrescription (dispatchUpdatePrescription _ q4) newId = some q4
    rw [findPrescription_dispatchUpdatePrescription _ q4 newId hid1, hfind3]
    rfl
  refine ⟨q1, q2, q3, q4, hfind1, ?_, ?_, hfind2, rfl, rfl, hfind3, rfl, rfl, rfl,
    hfind4, rfl, rfl, rfl⟩
  · show data.status = _
    exact hpending
  · show data.doctorVerified = _
    exact hver

/-- C3 counterexample: the reachable state obtained by registering a patient,
creating a pending unverified prescription and forwarding it straight away
holds a `forwarded` prescription whose `doctorVerified` flag is still false:
the claimed reachable-state invariant fails because `forwardPrescription` has
no guard. -/
theorem C3_unguarded_forward_counterexample :
    Reachable
        (List.foldl applyAction initialState
          [Action.register sampleRegistration "p1" 0 0,
            Action.prescribe samplePrescriptionData "rx1" 1,
            Action.forward "rx1" 2]) ∧
      ∃ q ∈ (List.foldl applyAction initialState
          [Action.register sampleRegistration "p1" 0 0,
            Action.prescribe samplePrescriptionData "rx1" 1,
            Action.forward "rx1" 2]).prescriptions,
        q.status = PrescriptionStatus.forwarded ∧ q.doctorVerified = false :=
  ⟨⟨_, rfl⟩, by decide⟩

/-- A concrete prescription that has already been dispensed at time 1000. -/
def dispensedPrescription : Prescription :=
  { id := "rx1"
    patientId := "p1"
    patientName := "A"
    tokenNumber := "GM-001"
    department := .general_medicine
    doctorDepartment := "General Medicine"
    diagnosis := "flu"
    medicines := []
    status := .dispensed
    aiGenerated := true
    doctorVerified := true
    createdAt := 100
    forwardedAt := some 500
    dispensedAt := some 1000 }

/-- C4: re-dispensing an already dispensed prescription is not rejected: the
second call silently re-stamps `dispensedAt` with the new clock reading
(2000 instead of the original 1000), and no already-dispensed condition is
reported anywhere in `dispenseMedicine`. -/
theorem C4_redispense_overwrites_timestamp :
    (findPrescription { initialState with prescriptions := [dispensedPrescription] } "rx1").map
        (fun q => q.dispensedAt) = some (some 1000) ∧
      (findPrescription
          (dispenseMedicine { initialState with prescriptions := [dispensedPrescription] }
            "rx1" 2000)
          "rx1").map (fun q => q.dispensedAt) = some (some 2000) := by
  constructor <;> decide

/-- C5 (amended): completing a consultation of a found patient mints exactly
one new receipt for that call, with scan count zero and `active` status, while
the patient becomes `completed`, carries the receipt back-reference and the
consultation-end stamp, and keeps the prior diagnosis unless a non-empty one
is supplied.  The at-most-one-active-receipt invariant does not hold, because
a second call mints a second receipt (see the counterexample). -/
theorem C5_complete_consultation_mints_receipt (st : QueueState) (pid : String)
    (d : Option String) (rid : String) (now : Int) (patient : Patient)
    (hfind : findPatient st pid = some patient)
    (hactive : patient.status ≠ PatientStatus.completed) :
    (completeConsultation st pid d rid now).receipts =
        st.receipts ++ [newReceiptOf st patient d rid now] ∧
      (newReceiptOf st patient d rid now).scanCount = 0 ∧
      (newReceiptOf st patient d rid now).status = ReceiptStatus.active ∧
      (newReceiptOf st patient d rid now).patientId = patient.id ∧
      { patient with
          status := PatientStatus.completed
          receiptId := some rid
          diagnosis := jsOrElse d patient.diagnosis
          consultationEndTime := some now } ∈ (completeConsultation st pid d rid now).patients ∧
      (∀ s, d = some s → s ≠ "" → jsOrElse d patient.diagnosis = some s) ∧
      (d = none → jsOrElse d patient.diagnosis = patient.diagnosis) := by
  have hcomp : completeConsultation st pid d rid now =
      dispatchAddReceipt
        (dispatchUpdatePatient now st
          { patient with
              status := PatientStatus.completed
              receiptId := some rid
              diagnosis := jsOrElse d patient.diagnosis
              consultationEndTime := some now })
        (newReceiptOf st patient d rid now) := by
    unfold completeConsultation
    rw [hfind]
  refine ⟨by rw [hcomp]; rfl, rfl, rfl, rfl, ?_, ?_, ?_⟩
  · rw [hcomp]
    show _ ∈ sortQueueByPriority now (st.patients.map _) none
    refine mem_sortQueueByPriority_of_mem (List.mem_map.mpr ⟨patient, findPatient_mem hfind, ?_⟩)
    rw [if_pos rfl]
  · intro s hs hne
    rw [hs]
    show (if s = "" then patient.diagnosis else some s) = some s
    rw [if_neg hne]
  · intro hs
    rw [hs]
    rfl

/-- C5 counterexample: completing the same patient twice (the second call is
not guarded against the `completed` status) mints two receipts, both `active`
and both pointing at the same patient, so a reachable state holds a patient
with two active receipts. -/
theorem C5_double_completion_counterexample :
    Reachable
        (List.foldl applyAction initialState
          [Action.register sampleRegistration "p1" 0 0,
            Action.complete "p1" none "r1" 10,
            Action.complete "p1" none "r2" 20]) ∧
      ((List.foldl applyAction initialState
          [Action.register sampleRegistration "p1" 0 0,
            Action.complete "p1" none "r1" 10,
            Action.complete "p1" none "r2" 20]).receipts.filter
          (fun r => decide (r.patientId = "p1") && decide (r.status = ReceiptStatus.active))).length =
        2 :=
  ⟨⟨_, rfl⟩, by decide⟩

/-- C6: `callNext` on a department with no waiting patient reports the
condition (`none`) and leaves the state untouched; otherwise it flips exactly
the head of the priority-sorted waiting list — a patient that the precedence
chain ranks no worse than every waiting patient of the department — to
`called`, and every other patient survives unchanged (the patient list of the
new state is a permutation of the old list with only that patient replaced). -/
theorem C6_callNext_highest_ranked_waiting (st : QueueState) (department : Department)
    (now : Int) :
    (st.patients.filter
          (fun p => decide (p.department = department) && decide (p.status = PatientStatus.waiting)) =
          [] →
        callNext st department now = (st, none)) ∧
      (st.patients.filter
          (fun p => decide (p.department = department) && decide (p.status = PatientStatus.waiting)) ≠
          [] →
        ∃ next rest,
          sortQueueByPriority now
              (st.patients.filter
                (fun p =>
                  decide (p.department = department) && decide (p.status = PatientStatus.waiting)))
              (some department) =
            next :: rest ∧
          callNext st department now =
            (dispatchUpdatePatient now st { next with status := PatientStatus.called },
              some next) ∧
          next.status = PatientStatus.waiting ∧
          next.department = department ∧
          next ∈ st.patients ∧
          (∀ q ∈ st.patients.filter
              (fun p =>
                decide (p.department = department) && decide (p.status = PatientStatus.waiting)),
            chainLe now next q) ∧
          (dispatchUpdatePatient now st
              { next with status := PatientStatus.called }).patients.Perm
            (st.patients.map
              (fun p =>
                if p.id = next.id then { next with status := PatientStatus.called } else p))) := by
  set W :=
    st.patients.filter
      (fun p => decide (p.department = department) && decide (p.status = PatientStatus.waiting))
    with hW
  constructor
  · intro h
    unfold callNext
    rw [← hW, h]
    rfl
  · intro hne
    have hWprops : ∀ q ∈ W, q.department = department ∧ q.status = PatientStatus.waiting := by
      intro q hq
      have h2 := (List.mem_filter.mp hq).2
      simpa using h2
    have hWmem : ∀ q ∈ W, q ∈ st.patients := fun q hq => (List.mem_filter.mp hq).1
    have hsort_eq :
        sortQueueByPriority now W (some department) = List.insertionSort (qle now) W := by
      show
        List.insertionSort (qle now)
            ((deptFilter W (some department)).filter
              (fun p => decide (p.status ≠ PatientStatus.completed))) ++
          (deptFilter W (some department)).filter
            (fun p => decide (p.status = PatientStatus.completed)) =
        List.insertionSort (qle now) W
      have hdf : deptFilter W (some department) = W :=
        List.filter_eq_self.mpr (fun q hq => by simp [(hWprops q hq).1])
      rw [hdf]
      have hact : W.filter (fun p => decide (p.status ≠ PatientStatus.completed)) = W :=
        List.filter_eq_self.mpr (fun q hq => by simp [(hWprops q hq).2])
      have hcomp : W.filter (fun p => decide (p.status = PatientStatus.completed)) = [] :=
        List.filter_eq_nil_iff.mpr (fun q hq => by simp [(hWprops q hq).2])
      rw [hact, hcomp, List.append_nil]
    have hperm : (List.insertionSort (qle now) W).Perm W := List.perm_insertionSort _ _
    obtain ⟨next, rest, hsorted⟩ :
        ∃ next rest, List.insertionSort (qle now) W = next :: rest := by
      cases hcase : List.insertionSort (qle now) W with
      | nil =>
        rw [hcase] at hperm
        exact absurd (hperm.symm.eq_nil) hne
      | cons a t => exact ⟨a, t, rfl⟩
    have hnextW : next ∈ W := hperm.mem_iff.mp (hsorted ▸ List.mem_cons_self _ _)
    have hcall :
        callNext st department now =
          (dispatchUpdatePatient now st { next with status := PatientStatus.called },
            some next) := by
      have hne' : W.isEmpty = false := by
        cases hcase : W with
        | nil => exact absurd hcase hne
        | cons a t => rfl
      unfold callNext
      rw [← hW]
      dsimp only
      rw [hsort_eq, hsorted, hne']
      rfl
    refine ⟨next, rest, by rw [hsort_eq, hsorted], hcall, (hWprops next hnextW).2,
      (hWprops next hnextW).1, hWmem next hnextW, ?_, ?_⟩
    · intro q hq
      have hqsorted : q ∈ next :: rest := hsorted ▸ hperm.mem_iff.mpr hq
      rcases List.mem_cons.mp hqsorted with h | h
      · exact h ▸ chainLe_refl now next
      · have hpw := pairwise_chainLe_insertionSort now W
        rw [hsorted] at hpw
        exact List.rel_of_pairwise_cons hpw h
    · exact sortQueueByPriority_perm now _ none

/-- C7: registration issues the token built from the two-letter department code,
a hyphen and the incremented counter zero-padded to three digits, bumps exactly
that department counter by one, leaves every other counter unchanged, and the
counters start at zero; a department transfer draws from the new department
counter in the same way (the "GM-007" example from the specification is
evaluated literally). -/
theorem C7_token_format_and_counters (st : QueueState) (data : RegistrationData)
    (newId : String) (now : Int) (r : ℚ) (pid : String) (nd : Department) :
    (registerPatient st data newId now r).1.tokenCounters =
        setCounter st.tokenCounters data.department
          (counterOf st.tokenCounters data.department + 1) ∧
      (newPatientOf st data newId now r).tokenNumber =
        generateTokenNumber data.department (counterOf st.tokenCounters data.department + 1) ∧
      newPatientOf st data newId now r ∈ (registerPatient st data newId now r).1.patients ∧
      (∀ (d : Department) (n : Nat),
        generateTokenNumber d n = deptCode d ++ "-" ++ leftPadThree (Nat.repr n) ∧
          (deptCode d).length = 2) ∧
      (∀ d, d ≠ data.department →
        counterOf (registerPatient st data newId now r).1.tokenCounters d =
          counterOf st.tokenCounters d) ∧
      (∀ d, counterOf initialState.tokenCounters d = 0) ∧
      generateTokenNumber Department.general_medicine 7 = "GM-007" ∧
      (∀ p, findPatient st pid = some p →
        (transferDepartment st pid nd now).tokenCounters =
            setCounter st.tokenCounters nd (counterOf st.tokenCounters nd + 1) ∧
          { p with
              department := nd
              tokenNumber := generateTokenNumber nd (counterOf st.tokenCounters nd + 1) } ∈
            (transferDepartment st pid nd now).patients) := by
  refine ⟨rfl, rfl, ?_, ?_, ?_, ?_, by decide, ?_⟩
  · exact mem_sortQueueByPriority_of_mem
      (List.mem_append.mpr (Or.inr (List.mem_singleton_self _)))
  · intro d n
    exact ⟨rfl, by cases d <;> decide⟩
  · intro d hd
    exact counterOf_setCounter_ne st.tokenCounters _ hd
  · intro d
    cases d <;> rfl
  · intro p hp
    have htrans : transferDepartment st pid nd now =
        dispatchUpdatePatient now
          { st with
            tokenCounters :=
              setCounter st.tokenCounters nd (counterOf st.tokenCounters nd + 1) }
          { p with
            department := nd
            tokenNumber := generateTokenNumber nd (counterOf st.tokenCounters nd + 1) } := by
      unfold transferDepartment
      rw [hp]
    refine ⟨by rw [htrans]; rfl, ?_⟩
    rw [htrans]
    show _ ∈ sortQueueByPriority now (st.patients.map _) none
    refine mem_sortQueueByPriority_of_mem (List.mem_map.mpr ⟨p, findPatient_mem hp, ?_⟩)
    rw [if_pos rfl]

/-- Patients are untouched by the prescription and receipt operations. -/
theorem verifyPrescription_patients (st : QueueState) (qid : String) :
    (verifyPrescription st qid).patients = st.patients := by
  unfold verifyPrescription
  cases findPrescription st qid <;> rfl

/-- Patients are untouched by `forwardPrescription`. -/
theorem forwardPrescription_patients (st : QueueState) (qid : String) (now : Int) :
    (forwardPrescription st qid now).patients = st.patients := by
  unfold forwardPrescription
  cases findPrescription st qid <;> rfl

/-- Patients are untouched by `dispenseMedicine`. -/
theorem dispenseMedicine_patients (st : QueueState) (qid : String) (now : Int) :
    (dispenseMedicine st qid now).patients = st.patients := by
  unfold dispenseMedicine
  cases findPrescription st qid <;> rfl

/-- Patients are untouched by `scanReceipt`. -/
theorem scanReceipt_patients (st : QueueState) (rid : String) :
    (scanReceipt st rid).state.patients = st.patients := by
  unfold scanReceipt
  cases findReceipt st rid <;> rfl

/-- The state `callNext` produces is either unchanged or an `UPDATE_PATIENT`
dispatch that flips one existing patient to `called`. -/
theorem callNext_state_cases (st : QueueState) (department : Department) (now : Int) :
    (callNext st department now).1 = st ∨
      ∃ next, next ∈ st.patients ∧
        (callNext st department now).1 =
          dispatchUpdatePatient now st { next with status := PatientStatus.called } := by
  unfold callNext
  dsimp only
  cases hempty :
      (st.patients.filter
        (fun p =>
          decide (p.department = department) && decide (p.status = PatientStatus.waiting))).isEmpty with
  | true =>
    rw [if_pos rfl]
    exact Or.inl rfl
  | false =>
    rw [if_neg (by simp)]
    cases hcase :
        sortQueueByPriority now
          (st.patients.filter
            (fun p =>
              decide (p.department = department) && decide (p.status = PatientStatus.waiting)))
          (some department) with
    | nil => exact Or.inl rfl
    | cons next tail =>
      refine Or.inr ⟨next, ?_, rfl⟩
      have : next ∈
          st.patients.filter
            (fun p =>
              decide (p.department = department) && decide (p.status = PatientStatus.waiting)) :=
        mem_of_mem_sortQueueByPriority (hcase ▸ List.mem_cons_self _ _)
      exact (List.mem_filter.mp this).1

/-- One staff action preserves the bound on every stored escalation level. -/
theorem escalationLevel_applyAction {st : QueueState}
    (h : ∀ p ∈ st.patients,
      p.escalationLevel = 0 ∨ p.escalationLevel = 1 ∨ p.escalationLevel = 2)
    (a : Action) :
    ∀ p ∈ (applyAction st a).patients,
      p.escalationLevel = 0 ∨ p.escalationLevel = 1 ∨ p.escalationLevel = 2 := by
  have hupd :
      ∀ (now : Int) (q : Patient) (f : Patient → Patient),
        (f q).escalationLevel = q.escalationLevel → q ∈ st.patients →
        ∀ p ∈ (dispatchUpdatePatient now st (f q)).patients,
          p.escalationLevel = 0 ∨ p.escalationLevel = 1 ∨ p.escalationLevel = 2 := by
    intro now q f hf hq p hp
    rcases mem_dispatchUpdatePatient hp with h1 | h1
    · rw [h1, hf]
      exact h q hq
    · exact h p h1
  cases a with
  | register data newId now r =>
    intro p hp
    rcases mem_dispatchRegister hp with h1 | h1
    · rw [h1]
      exact Or.inl rfl
    · exact h p h1
  | setStatus pid status now =>
    show ∀ p ∈ (updateStatus st pid status now).patients, _
    unfold updateStatus
    cases hfind : findPatient st pid with
    | none => exact h
    | some q =>
      exact hupd now q (fun q => { q with status := status }) rfl (findPatient_mem hfind)
  | emergency pid now =>
    show ∀ p ∈ (markEmergency st pid now).patients, _
    unfold markEmergency
    cases hfind : findPatient st pid with
    | none => exact h
    | some q =>
      exact hupd now q (fun q => { q with isEmergency := true, status := .emergency }) rfl
        (findPatient_mem hfind)
  | resolve pid now =>
    show ∀ p ∈ (resolveEmergency st pid now).patients, _
    unfold resolveEmergency
    cases hfind : findPatient st pid with
    | none => exact h
    | some q =>
      exact hupd now q (fun q => { q with isEmergency := false, status := .waiting }) rfl
        (findPatient_mem hfind)
  | late pid now =>
    show ∀ p ∈ (markLateArrival st pid now).patients, _
    unfold markLateArrival
    cases hfind : findPatient st pid with
    | none => exact h
    | some q =>
      exact hupd now q (fun q => { q with isLateArrival := true }) rfl (findPatient_mem hfind)
  | escalateTo pid level now =>
    show ∀ p ∈ (escalate st pid level now).1.patients, _
    unfold escalate
    cases hfind : findPatient st pid with
    | none => exact h
    | some q =>
      dsimp only
      by_cases hlv : 0 ≤ level ∧ level ≤ 2
      · rw [if_pos hlv]
        intro p hp
        rcases mem_dispatchUpdatePatient hp with h1 | h1
        · rw [h1]
          show level = 0 ∨ level = 1 ∨ level = 2
          omega
        · exact h p h1
      · rw [if_neg hlv]
        exact h
  | start pid now =>
    show ∀ p ∈ (startConsultation st pid now).patients, _
    unfold startConsultation
    cases hfind : findPatient st pid with
    | none => exact h
    | some q =>
      exact hupd now q (fun q => { q with status := .consultation }) rfl (findPatient_mem hfind)
  | next department now =>
    show ∀ p ∈ (callNext st department now).1.patients, _
    rcases callNext_state_cases st department now with hc | ⟨q, hq, hc⟩
    · rw [hc]
      exact h
    · rw [hc]
      exact hupd now q (fun q => { q with status := .called }) rfl hq
  | complete pid diagnosis rid now =>
    show ∀ p ∈ (completeConsultation st pid diagnosis rid now).patients, _
    unfold completeConsultation
    cases hfind : findPatient st pid with
    | none => exact h
    | some q =>
      exact hupd now q
        (fun q =>
          { q with
            status := .completed
            receiptId := some rid
            diagnosis := jsOrElse diagnosis q.diagnosis
            consultationEndTime := some now })
        rfl (findPatient_mem hfind)
  | remove pid =>
    intro p hp
    exact h p (List.mem_filter.mp hp).1
  | transfer pid newDepartment now =>
    show ∀ p ∈ (transferDepartment st pid newDepartment now).patients, _
    unfold transferDepartment
    cases hfind : findPatient st pid with
    | none => exact h
    | some q =>
      intro p hp
      rcases mem_dispatchUpdatePatient hp with h1 | h1
      · rw [h1]
        exact h q (findPatient_mem hfind)
      · exact h p h1
  | prescribe data newId now =>
    show ∀ p ∈ (createPrescription st data newId now).1.patients, _
    unfold createPrescription
    cases hfind : findPatient st data.patientId with
    | none => exact h
    | some q =>
      intro p hp
      rcases mem_dispatchUpdatePatient hp with h1 | h1
      · rw [h1]
        exact h q (findPatient_mem hfind)
      · exact h p h1
  | verify qid =>
    rw [show (applyAction st (.verify qid)).patients = st.patients from
      verifyPrescription_patients st qid]
    exact h
  | forward qid now =>
    rw [show (applyAction st (.forward qid now)).patients = st.patients from
      forwardPrescription_patients st qid now]
    exact h
  | dispense qid now =>
    rw [show (applyAction st (.dispense qid now)).patients = st.patients from
      dispenseMedicine_patients st qid now]
    exact h
  | scan rid =>
    rw [show (applyAction st (.scan rid)).patients = st.patients from
      scanReceipt_patients st rid]
    exact h

/-- C8: in every reachable state every stored escalation level is 0, 1 or 2,
and an `escalate` call with an out-of-range level leaves the state unchanged
and reports `invalidInput` to the caller (the durable store rejects it through
the CHECK constraint) instead of storing the value. -/
theorem C8_escalation_bounded (st : QueueState) (pid : String) (level now : Int) :
    (Reachable st → ∀ p ∈ st.patients,
        p.escalationLevel = 0 ∨ p.escalationLevel = 1 ∨ p.escalationLevel = 2) ∧
      ((level < 0 ∨ 2 < level) →
        (escalate st pid level now).1 = st ∧
          ∀ p, findPatient st pid = some p →
            (escalate st pid level now).2 = EscalateOutcome.invalidInput) := by
  constructor
  · rintro ⟨actions, rfl⟩
    have hmain : ∀ (l : List Action) (s : QueueState),
        (∀ p ∈ s.patients,
          p.escalationLevel = 0 ∨ p.escalationLevel = 1 ∨ p.escalationLevel = 2) →
        ∀ p ∈ (l.foldl applyAction s).patients,
          p.escalationLevel = 0 ∨ p.escalationLevel = 1 ∨ p.escalationLevel = 2 := by
      intro l
      induction l with
      | nil => exact fun s hs => hs
      | cons a t ih => exact fun s hs => ih _ (escalationLevel_applyAction hs a)
    refine hmain actions initialState ?_
    intro p hp
    exact absurd hp (List.not_mem_nil p)
  · intro hout
    constructor
    · unfold escalate
      cases hfind : findPatient st pid with
      | none => rfl
      | some q =>
        dsimp only
        rw [if_neg (by omega)]
    · intro p hp
      unfold escalate
      rw [hp]
      dsimp only
      rw [if_neg (by omega)]

/-- C10: an operation aimed at an id that no record carries leaves the whole
queue state untouched (`scanReceipt` additionally returns `null` and raises no
signal), across every id-taking public operation. -/
theorem C10_unknown_id_is_noop (st : QueueState) (pid qid rid newRid : String)
    (status : PatientStatus) (level now : Int) (d : Option String) :
    (findPatient st pid = none →
        updateStatus st pid status now = st ∧
        markEmergency st pid now = st ∧
        resolveEmergency st pid now = st ∧
        markLateArrival st pid now = st ∧
        escalate st pid level now = (st, EscalateOutcome.notFound) ∧
        startConsultation st pid now = st ∧
        completeConsultation st pid d newRid now = st) ∧
      (findPrescription st qid = none →
        verifyPrescription st qid = st ∧
        forwardPrescription st qid now = st ∧
        dispenseMedicine st qid now = st) ∧
      (findReceipt st rid = none →
        scanReceipt st rid = { state := st, returned := none, fraudSignal := false }) := by
  refine ⟨fun h => ⟨?_, ?_, ?_, ?_, ?_, ?_, ?_⟩, fun h => ⟨?_, ?_, ?_⟩, fun h => ?_⟩
  · unfold updateStatus
    rw [h]
  · unfold markEmergency
    rw [h]
  · unfold resolveEmergency
    rw [h]
  · unfold markLateArrival
    rw [h]
  · unfold escalate
    rw [h]
  · unfold startConsultation
    rw [h]
  · unfold completeConsultation
    rw [h]
  · unfold verifyPrescription
    rw [h]
  · unfold forwardPrescription
    rw [h]
  · unfold dispenseMedicine
    rw [h]
  · unfold scanReceipt
    rw [h]

/-- A freshly minted concrete receipt: zero scans, `active`. -/
def freshReceipt : VisitReceipt :=
  { id := "r1"
    patientId := "p1"
    patientName := "A"
    tokenNumber := "GM-001"
    department := .general_medicine
    visitDate := 10
    doctorRole := "General Medicine Physician"
    visitType := .routine
    diagnosis := none
    prescriptionId := none
    prescriptionStatus := none
    status := .active
    scanCount := 0
    createdAt := 10 }

/-- Witness for C2 at a concrete receipt. -/
theorem C2_scanReceipt_increments_and_flags_witness :
    ∃ r', (scanReceipt { initialState with receipts := [freshReceipt] } "r1").returned = some r' ∧
      r'.scanCount = freshReceipt.scanCount + 1 := by
  obtain ⟨r', h1, h2, _⟩ :=
    (C2_scanReceipt_increments_and_flags { initialState with receipts := [freshReceipt] }
      "r1" freshReceipt (by decide)).1
  exact ⟨r', h1, h2⟩

/-- Witness for C3 at a concrete prescription run from the empty state. -/
theorem C3_prescription_happy_path_witness :
    ∃ q : Prescription,
      findPrescription
          (dispenseMedicine
            (forwardPrescription
              (verifyPrescription
                (createPrescription initialState samplePrescriptionData "rx1" 0).1 "rx1")
              "rx1" 1)
            "rx1" 2)
          "rx1" = some q ∧ q.status = PrescriptionStatus.dispensed := by
  obtain ⟨q1, q2, q3, q4, hf1, hs1, hv1, hf2, hs2, hv2, hf3, hs3, hv3, hfw3, hf4, hs4, hv4, hd4⟩ :=
    C3_prescription_happy_path initialState samplePrescriptionData "rx1" 0 1 2 rfl rfl
      (fun q hq => absurd hq (List.not_mem_nil q))
  exact ⟨q4, hf4, hs4⟩

/-- Witness for C5 at a concrete waiting patient. -/
theorem C5_complete_consultation_mints_receipt_witness :
    (completeConsultation { initialState with patients := [samplePatient] } "p1" none "r1" 5).receipts =
        ({ initialState with patients := [samplePatient] } : QueueState).receipts ++
          [newReceiptOf { initialState with patients := [samplePatient] } samplePatient none "r1" 5] ∧
      (newReceiptOf { initialState with patients := [samplePatient] } samplePatient none "r1" 5).scanCount = 0 := by
  have h :=
    C5_complete_consultation_mints_receipt { initialState with patients := [samplePatient] }
      "p1" none "r1" 5 samplePatient (by decide) (by decide)
  exact ⟨h.1, h.2.1⟩

/-- Witness for C6: the empty general-medicine queue of the initial state. -/
theorem C6_callNext_highest_ranked_waiting_witness :
    callNext initialState Department.general_medicine 0 = (initialState, none) :=
  (C6_callNext_highest_ranked_waiting initialState Department.general_medicine 0).1 rfl

/-- Witness for C7: transferring a concrete patient to pediatrics bumps that
counter. -/
theorem C7_token_format_and_counters_witness :
    (transferDepartment { initialState with patients := [samplePatient] } "p1"
          Department.pediatrics 0).tokenCounters =
      setCounter ({ initialState with patients := [samplePatient] } : QueueState).tokenCounters
        Department.pediatrics
        (counterOf ({ initialState with patients := [samplePatient] } : QueueState).tokenCounters
            Department.pediatrics + 1) := by
  have h :=
    (C7_token_format_and_counters { initialState with patients := [samplePatient] }
        sampleRegistration "x" 0 0 "p1" Department.pediatrics).2.2.2.2.2.2.2 samplePatient
      (by decide)
  exact h.1

/-- Witness for C8: the initial state is reachable and an out-of-range level is
rejected on a concrete patient. -/
theorem C8_escalation_bounded_witness :
    (∀ p ∈ initialState.patients,
        p.escalationLevel = 0 ∨ p.escalationLevel = 1 ∨ p.escalationLevel = 2) ∧
      (escalate { initialState with patients := [samplePatient] } "p1" 5 0).1 =
        { initialState with patients := [samplePatient] } ∧
      (escalate { initialState with patients := [samplePatient] } "p1" 5 0).2 =
        EscalateOutcome.invalidInput := by
  have h1 := (C8_escalation_bounded initialState "p1" 5 0).1 ⟨[], rfl⟩
  have h2 :=
    (C8_escalation_bounded { initialState with patients := [samplePatient] } "p1" 5 0).2
      (by omega)
  exact ⟨h1, h2.1, h2.2 samplePatient (by decide)⟩

/-- Witness for C10: every lookup misses in the empty initial state. -/
theorem C10_unknown_id_is_noop_witness :
    updateStatus initialState "p" PatientStatus.called 0 = initialState ∧
      verifyPrescription initialState "q" = initialState ∧
      scanReceipt initialState "r" =
        { state := initialState, returned := none, fraudSignal := false } := by
  have h :=
    C10_unknown_id_is_noop initialState "p" "q" "r" "nr" PatientStatus.called 1 0 none
  exact ⟨(h.1 rfl).1, (h.2.1 rfl).1, h.2.2 rfl⟩

end HealthChain
